import Mathlib

/-!
# The block banner printer (`blocks/release.c`)

A shallow embedding of the C program: the two palette arrays are flat byte
memories, `printf` interprets a format string over `char*` arguments, and
`main` threads the byte stream written to standard output through its
statements.  A UTF-8 decoder gives the character view of that stream, on
which the statements about rows, columns, glyphs and escapes are made.
-/

namespace Blocks

/-! ## Bytes, string literals and `char` arrays -/

/-- Bytes of a C string literal (without its terminating NUL) in the UTF-8
execution character set: the source file is UTF-8 and the bytes of a literal
are passed through unchanged. -/
def bytes (s : String) : List Nat :=
  s.data.flatMap (fun c => (String.utf8EncodeChar c).map UInt8.toNat)

/-- Initialisation of one `char[width]` slot from a string literal: the
literal's bytes, then NUL bytes up to the slot's width. -/
def initSlot (width : Nat) (lit : List Nat) : List Nat :=
  (lit ++ List.replicate width 0).take width

/-- Initialisation of a `char a[rows][width]` array from a brace list of
string literals, as one flat region of `rows * width` bytes; rows without an
initialiser are zero. -/
def initArray (rows width : Nat) (inits : List String) : List Nat :=
  (List.range rows).flatMap (fun i => initSlot width (bytes (inits.getD i "")))

/-- The brace list initialising `fore`. -/
def foreInit : List String :=
  ["\x1b[38;5;204m", "\x1b[38;5;78m", "\x1b[38;5;228m",
    "\x1b[38;5;75m", "\x1b[38;5;141m", "\x1b[38;5;81m"]

/-- The brace list initialising `back`. -/
def backInit : List String :=
  ["\x1b[38;5;161m", "\x1b[38;5;35m", "\x1b[38;5;185m",
    "\x1b[38;5;32m", "\x1b[38;5;98m", "\x1b[38;5;38m"]

/-- The array `char fore[6][15]`. -/
def fore : List Nat := initArray 6 15 foreInit

/-- The array `char back[6][15]`. -/
def back : List Nat := initArray 6 15 backInit

/-- A `char*`: the object it points into and the byte offset in it. -/
structure CharPtr where
  mem : List Nat
  off : Nat

/-- The expression `a[i]` for `char a[6][15]`, decayed to a pointer to the
first byte of row `i`. -/
def row (a : List Nat) (i : Nat) : CharPtr := ⟨a, 15 * i⟩

/-- Read bytes up to the first NUL; `none` when the end of the object is
reached before any NUL (an out-of-bounds read in C). -/
def readCStr : List Nat → Option (List Nat)
  | [] => none
  | b :: rest => if b = 0 then some [] else (readCStr rest).map (fun s => b :: s)

/-- The C string a pointer designates. -/
def CharPtr.cstr (p : CharPtr) : Option (List Nat) := readCStr (p.mem.drop p.off)

/-! ## `printf` and `main` -/

/-- The bytes `printf` produces for a format string and its arguments: `%s`
(bytes 37, 115) consumes the next argument and copies its C string, every
other byte is copied as it is.  Conversions other than `%s`, and a `%s`
without an argument, are not modelled and give `none`. -/
def printf : List Nat → List CharPtr → Option (List Nat)
  | [], _ => some []
  | b :: fmt, args =>
    if b = 37 then
      match fmt, args with
      | c :: fmt', p :: args' =>
        if c = 115 then
          match p.cstr, printf fmt' args' with
          | some s, some r => some (s ++ r)
          | _, _ => none
        else none
      | _, _ => none
    else (printf fmt args).map (fun r => b :: r)

/-- One `printf(fmt, args...)` statement acting on the bytes written to
standard output so far. -/
def emit (fmt : String) (args : List CharPtr) (out : List Nat) : Option (List Nat) :=
  (printf (bytes fmt) args).map (fun r => out ++ r)

/-- The loop `for (int i = 0; i < n; i++) body`, the body acting on the
output written so far. -/
def forLoop (n : Nat) (body : Nat → List Nat → Option (List Nat)) (out : List Nat) :
    Option (List Nat) :=
  (List.range n).foldlM (fun o i => body i o) out

/-- The function `main`: the bytes it has written to standard output when it
returns, starting from an empty stream.  The octal escape `\033` of the
format strings is the byte 27, written `\x1b` here. -/
def main : Option (List Nat) := do
  let out ← emit "\n\n" [] []
  let out ← emit "    " [] out
  let out ← forLoop 6 (fun i out =>
    emit "%s████%s▄   \x1b[0m" [row fore i, row back i] out) out
  let out ← emit "\n" [] out
  let out ← forLoop 2 (fun _ out => do
    let out ← emit "    " [] out
    let out ← forLoop 6 (fun j out =>
      emit "%s████%s█   \x1b[0m" [row fore j, row back j] out) out
    emit "\n" [] out) out
  let out ← emit "    " [] out
  let out ← forLoop 6 (fun i out =>
    emit " %s▀▀▀▀   \x1b[0m" [row back i] out) out
  emit "\n\n\n" [] out

/-- The bytes on standard output after `main` has returned. -/
def stdout : List Nat := main.getD []

/-! ## The character view of the output -/

/-- A UTF-8 continuation byte. -/
def isCont (b : Nat) : Bool := 128 ≤ b && b < 192

/-- Decode one UTF-8 sequence from the front of a byte list: the scalar value
and the remaining bytes. -/
def utf8DecodeOne : List Nat → Option (Nat × List Nat)
  | [] => none
  | b0 :: rest =>
    if b0 < 128 then some (b0, rest)
    else if 192 ≤ b0 ∧ b0 < 224 then
      match rest with
      | b1 :: rest1 =>
        if isCont b1 then some ((b0 - 192) * 64 + (b1 - 128), rest1) else none
      | _ => none
    else if 224 ≤ b0 ∧ b0 < 240 then
      match rest with
      | b1 :: b2 :: rest2 =>
        if isCont b1 ∧ isCont b2 then
          some ((b0 - 224) * 4096 + (b1 - 128) * 64 + (b2 - 128), rest2)
        else none
      | _ => none
    else if 240 ≤ b0 ∧ b0 < 248 then
      match rest with
      | b1 :: b2 :: b3 :: rest3 =>
        if isCont b1 ∧ isCont b2 ∧ isCont b3 then
          some ((b0 - 240) * 262144 + (b1 - 128) * 4096 + (b2 - 128) * 64 + (b3 - 128), rest3)
        else none
      | _ => none
    else none

/-- Decode at most `fuel` UTF-8 sequences; every sequence consumes a byte, so
the length of the input is always fuel enough. -/
def utf8DecodeAux : Nat → List Nat → Option (List Char)
  | _, [] => some []
  | 0, _ :: _ => none
  | fuel + 1, b :: bs =>
    match utf8DecodeOne (b :: bs) with
    | some (v, rest) => (utf8DecodeAux fuel rest).map (fun cs => Char.ofNat v :: cs)
    | none => none

/-- The characters a UTF-8 terminal reads from a byte stream; `none` when the
stream is not UTF-8. -/
def utf8Decode (bs : List Nat) : Option (List Char) := utf8DecodeAux bs.length bs

/-- UTF-8 bytes of a list of characters. -/
def utf8Encode (cs : List Char) : List Nat := bytes (String.mk cs)

/-- The characters on standard output after `main` has returned. -/
def screen : List Char := (utf8Decode stdout).getD []

/-- Palette entry `i` of the array `a` as `printf("%s", a[i])` prints it, in
characters. -/
def entry (a : List Nat) (i : Nat) : List Char :=
  (((row a i).cstr).bind utf8Decode).getD []

/-- The escape character, `\x1b` or `\033`. -/
def escChar : Char := Char.ofNat 27

/-- The newline character. -/
def newline : Char := Char.ofNat 10

/-- The space character. -/
def space : Char := Char.ofNat 32

/-- U+2588 FULL BLOCK. -/
def fullBlock : Char := Char.ofNat 0x2588

/-- U+2584 LOWER HALF BLOCK. -/
def lowerHalfBlock : Char := Char.ofNat 0x2584

/-- U+2580 UPPER HALF BLOCK. -/
def upperHalfBlock : Char := Char.ofNat 0x2580

/-- U+2581 LOWER ONE EIGHTH BLOCK. -/
def lowerEighthBlock : Char := Char.ofNat 0x2581

/-- U+2594 UPPER ONE EIGHTH BLOCK. -/
def upperEighthBlock : Char := Char.ofNat 0x2594

/-- Membership in the Unicode block "Block Elements", U+2580 .. U+259F. -/
def isBlockElement (c : Char) : Bool := 0x2580 ≤ c.toNat && c.toNat ≤ 0x259F

/-- The reset escape `ESC [ 0 m`. -/
def reset : List Char := "\x1b[0m".data

/-- The 256-colour foreground select escape `ESC [ 38 ; 5 ; N m`. -/
def colorSelect (n : Nat) : List Char := "\x1b[38;5;".data ++ (Nat.repr n).data ++ "m".data

/-- The 256-colour background select escape `ESC [ 48 ; 5 ; N m`. -/
def backgroundSelect (n : Nat) : List Char :=
  "\x1b[48;5;".data ++ (Nat.repr n).data ++ "m".data

/-- An escape that is `colorSelect n` for a colour code `n` in 0 .. 255. -/
def isColorSelect (e : List Char) : Bool := (List.range 256).any (fun n => e = colorSelect n)

/-- The lines of a text: every newline ends a line, the newline itself is not
part of the line; characters after the last newline form a last, unterminated
line. -/
def lines : List Char → List (List Char)
  | [] => []
  | c :: cs =>
    if c = newline then [] :: lines cs
    else
      match lines cs with
      | [] => [[c]]
      | l :: ls => (c :: l) :: ls

/-- Line `n` of the output, counted from 1, without its newline. -/
def line (n : Nat) : List Char := (lines screen).getD (n - 1) []

/-- Content row `r` of the banner, `r` in 1 .. 4: lines 3 .. 6 of the output. -/
def contentRow (r : Nat) : List Char := line (r + 2)

/-- A token of a scanned text: an escape sequence (from ESC up to and including
the next `m`) or a single other character, with the index of its first
character in the text. -/
structure Tok where
  pos : Nat
  isEsc : Bool
  text : List Char

/-- Scanner for escape sequences.  The state is the index of the next
character and, inside an escape sequence, its start index and the characters
read so far. -/
def scan : Nat → Option (Nat × List Char) → List Char → List Tok
  | _, none, [] => []
  | _, some (p, e), [] => [⟨p, true, e⟩]
  | n, none, c :: cs =>
    if c = escChar then scan (n + 1) (some (n, [c])) cs
    else ⟨n, false, [c]⟩ :: scan (n + 1) none cs
  | n, some (p, e), c :: cs =>
    if c = Char.ofNat 109 then ⟨p, true, e ++ [c]⟩ :: scan (n + 1) none cs
    else scan (n + 1) (some (p, e ++ [c])) cs

/-- The tokens of a text. -/
def tokens (cs : List Char) : List Tok := scan 0 none cs

/-- The escape sequences of a text, in order of occurrence. -/
def escapes (cs : List Char) : List (List Char) :=
  ((tokens cs).filter (fun t => t.isEsc)).map (fun t => t.text)

/-- The text with every escape sequence removed. -/
def visible (cs : List Char) : List Char :=
  ((tokens cs).filter (fun t => !t.isEsc)).flatMap (fun t => t.text)

/-- Cut a token list after every reset escape. -/
def splitAfterReset : List Tok → List (List Tok)
  | [] => []
  | t :: ts =>
    if t.isEsc ∧ t.text = reset then [t] :: splitAfterReset ts
    else
      match splitAfterReset ts with
      | [] => [[t]]
      | s :: ss => (t :: s) :: ss

/-- The column segments of a content row: the tokens after the four
characters of indent, cut after every reset escape. -/
def columns (rowText : List Char) : List (List Tok) :=
  splitAfterReset ((tokens rowText).drop 4)

/-- The visible tokens of column `i` of a row. -/
def cellToks (rowText : List Char) (i : Nat) : List Tok :=
  ((columns rowText).getD i []).filter (fun t => !t.isEsc)

/-- The visible cell of column `i` of a row: its characters with the escapes
removed. -/
def cell (rowText : List Char) (i : Nat) : List Char :=
  (cellToks rowText i).flatMap (fun t => t.text)

/-- The fifth glyph of column `i` of a row. -/
def fifthGlyph (rowText : List Char) (i : Nat) : Option Char := (cell rowText i).get? 4

/-- The character that directly follows the escape `e` in column `i` of a
row, if `e` occurs there followed by a character. -/
def glyphAfter (e : List Char) : List Tok → Option Char
  | t :: u :: ts =>
    if t.isEsc ∧ t.text = e ∧ u.isEsc = false then u.text.head? else glyphAfter e (u :: ts)
  | _ => none

/-- The four base glyphs of column `i` of the last row: the visible
characters after the leading space of the segment. -/
def baseGlyphs (rowText : List Char) (i : Nat) : List Char := ((cell rowText i).drop 1).take 4

/-- Indices in a row of the fifth glyph of each of its columns. -/
def fifthGlyphPositions (rowText : List Char) : List Nat :=
  (List.range (columns rowText).length).filterMap
    (fun i => ((cellToks rowText i).get? 4).map (fun t => t.pos))

/-- Indices at which two texts of the same length differ. -/
def diffPositions (a b : List Char) : List Nat :=
  (List.range a.length).filter (fun p => a.get? p != b.get? p)

/-! ## The transcript as the specification words it -/

/-- The characters of string literal `i` of a brace list, as written in the
source; independent of the arrays, of `row` and of the C string read. -/
def literal (inits : List String) (i : Nat) : List Char := (inits.getD i "").data

/-- The column in which escape `k` of the output lies: every column segment
ends with one reset escape and a row has six columns, so it is the number of
reset escapes before escape `k`, modulo 6. -/
def columnOfEscape (k : Nat) : Nat := (((escapes screen).take k).count reset) % 6

/-- Column `i` of a block row with fifth glyph `g`: the literal of `fore[i]`,
four full blocks, the literal of `back[i]`, the glyph `g`, three spaces, the
reset escape. -/
def specColumn (g : Char) (i : Nat) : List Char :=
  literal foreInit i ++ List.replicate 4 fullBlock ++ literal backInit i ++ [g] ++
    List.replicate 3 space ++ reset

/-- A block row with fifth glyph `g`: four spaces, columns 0 .. 5 in
ascending order, a newline. -/
def specRow (g : Char) : List Char :=
  List.replicate 4 space ++ (List.range 6).flatMap (specColumn g) ++ [newline]

/-- Column `i` of the base row with base glyph `g`: one space, the literal of
`back[i]`, four copies of `g`, three spaces, the reset escape. -/
def specBaseColumn (g : Char) (i : Nat) : List Char :=
  [space] ++ literal backInit i ++ List.replicate 4 g ++ List.replicate 3 space ++ reset

/-- The base row with base glyph `g`: four spaces, columns 0 .. 5 in ascending
order, a newline. -/
def specBaseRow (g : Char) : List Char :=
  List.replicate 4 space ++ (List.range 6).flatMap (specBaseColumn g) ++ [newline]

/-- The whole transcript for a first-row glyph `g1` and a base glyph `g4`:
two newlines, row 1, the middle row twice, row 4, two newlines. -/
def specTranscript (g1 g4 : Char) : List Char :=
  [newline, newline] ++ specRow g1 ++ specRow fullBlock ++ specRow fullBlock ++
    specBaseRow g4 ++ [newline, newline]

/-! ## Basic facts about the run -/

set_option maxRecDepth 1000000

/-- The function `main` returns, and `stdout` is what it has written. -/
theorem main_returns : main = some stdout := by decide!

/-- The output is UTF-8 and `screen` is its decoding. -/
theorem stdout_decodes : utf8Decode stdout = some screen := by decide!

/-- Encoding the decoded output gives back the bytes written. -/
theorem screen_encodes : utf8Encode screen = stdout := by decide!

/-- The output has 977 bytes, which are 749 characters. -/
theorem output_size : stdout.length = 977 ∧ screen.length = 749 := by decide!

/-- There are 66 escape sequences in the output. -/
theorem escapes_length : (escapes screen).length = 66 := by decide!

/-! ## The claims -/

/-- C1: the complete output of `main` is, in order, two newlines, row 1 with
the lower half block as its fifth glyph, the middle row (fifth glyph a full
block) twice, row 4 with the upper half block as base glyph, and two
newlines, with nothing before, between or after; both glyphs are single
characters of the Block Elements range.  The rows are built from the
initialiser literals of `fore` and `back`, column `i` taking literal `i`, which
are the colour select escapes of the codes listed.  The equality holds for the
bytes written and for their decoding into characters. -/
theorem transcript_eq :
    main = some (utf8Encode (specTranscript lowerHalfBlock upperHalfBlock)) ∧
    screen = specTranscript lowerHalfBlock upperHalfBlock ∧
    isBlockElement lowerHalfBlock = true ∧ isBlockElement upperHalfBlock = true ∧
    (List.range 6).map (literal foreInit) = [204, 78, 228, 75, 141, 81].map colorSelect ∧
    (List.range 6).map (literal backInit) = [161, 35, 185, 32, 98, 38].map colorSelect := by
  decide!

/-- C4: the output contains exactly 8 newline characters and ends with one, so
it is exactly 8 lines; lines 1, 2, 7 and 8 are empty and lines 3, 4, 5 and 6,
the content rows, are not. -/
theorem eight_lines :
    screen.count newline = 8 ∧ stdout.count 10 = 8 ∧
    screen.getLast? = some newline ∧ (lines screen).length = 8 ∧
    line 1 = [] ∧ line 2 = [] ∧ line 7 = [] ∧ line 8 = [] ∧
    line 3 ≠ [] ∧ line 4 ≠ [] ∧ line 5 ≠ [] ∧ line 6 ≠ [] ∧
    (List.range 4).map (fun r => contentRow (r + 1)) = [line 3, line 4, line 5, line 6] := by
  decide!

/-- C5: both palettes have exactly 6 entries (6 initialisers, 6 slots of 15
bytes); every entry of `fore` and of `back` is the foreground select escape
`ESC [ 38 ; 5 ; N m` for a decimal `N` in 0 .. 255, none starts with the
background select prefix `ESC [ 48 ; 5 ;`, and the 6 codes of each palette are
pairwise distinct. -/
theorem palette_form :
    foreInit.length = 6 ∧ backInit.length = 6 ∧ fore.length = 6 * 15 ∧ back.length = 6 * 15 ∧
    (List.range 6).map (entry fore) = [204, 78, 228, 75, 141, 81].map colorSelect ∧
    (List.range 6).map (entry back) = [161, 35, 185, 32, 98, 38].map colorSelect ∧
    ([204, 78, 228, 75, 141, 81] ++ [161, 35, 185, 32, 98, 38]).all (fun n => n ≤ 255) = true ∧
    [204, 78, 228, 75, 141, 81].Nodup ∧ [161, 35, 185, 32, 98, 38].Nodup ∧
    ((List.range 6).map (entry fore) ++ (List.range 6).map (entry back)).all
      (fun e => isColorSelect e && !("\x1b[48;5;".data).isPrefixOf e) = true := by
  decide!

/-- C10: the 12 initialisers are 11 or 10 bytes long, so at most 14 and the
longest 11; each slot of 15 bytes therefore holds its literal and a
terminating NUL, and reading entry `i` as a C string, as `printf` does for
`%s`, gives exactly the bytes of initialiser `i`, the NUL that ends the read
lying inside slot `i`. -/
theorem palette_slots (i : Fin 6) :
    foreInit.map (fun s => (bytes s).length) = [11, 10, 11, 10, 11, 10] ∧
    backInit.map (fun s => (bytes s).length) = [11, 10, 11, 10, 10, 10] ∧
    (bytes (foreInit.getD i.val "")).length ≤ 14 ∧
    (bytes (backInit.getD i.val "")).length ≤ 14 ∧
    (row fore i.val).cstr = some (bytes (foreInit.getD i.val "")) ∧
    (row back i.val).cstr = some (bytes (backInit.getD i.val "")) ∧
    printf (bytes "%s") [row fore i.val] = some (bytes (foreInit.getD i.val "")) ∧
    printf (bytes "%s") [row back i.val] = some (bytes (backInit.getD i.val "")) ∧
    fore.get? (15 * i.val + (bytes (foreInit.getD i.val "")).length) = some 0 ∧
    back.get? (15 * i.val + (bytes (backInit.getD i.val "")).length) = some 0 ∧
    15 * i.val + (bytes (foreInit.getD i.val "")).length < 15 * (i.val + 1) ∧
    15 * i.val + (bytes (backInit.getD i.val "")).length < 15 * (i.val + 1) := by
  revert i
  decide!

/-- C2, as stated, fails: the fifth glyph of column 0 of the first content row
is U+2584, not the lower one eighth block U+2581, and the base glyphs of
column 0 of the last content row are U+2580, not the upper one eighth block
U+2594; so it is not true that every column has the eighth blocks there. -/
theorem eighth_blocks_refuted :
    fifthGlyph (contentRow 1) 0 = some (Char.ofNat 0x2584) ∧
    baseGlyphs (contentRow 4) 0 = List.replicate 4 (Char.ofNat 0x2580) ∧
    ¬ (∀ i : Fin 6,
        fifthGlyph (contentRow 1) i.val = some lowerEighthBlock ∧
        baseGlyphs (contentRow 4) i.val = List.replicate 4 upperEighthBlock) := by
  refine ⟨by decide!, by decide!, ?_⟩
  intro h
  have h0 := (h ⟨0, by decide⟩).1
  revert h0
  decide!

/-- C2, amended: in every column of the first content row the fifth glyph,
which is the character directly after the `back[i]` escape, is the lower half
block U+2584, and in every column of the last content row the four base glyphs
are the upper half block U+2580. -/
theorem half_blocks (i : Fin 6) :
    fifthGlyph (contentRow 1) i.val = some lowerHalfBlock ∧
    glyphAfter (entry back i.val) ((columns (contentRow 1)).getD i.val []) =
      some lowerHalfBlock ∧
    baseGlyphs (contentRow 4) i.val = List.replicate 4 upperHalfBlock ∧
    lowerHalfBlock.toNat = 0x2584 ∧ upperHalfBlock.toNat = 0x2580 := by
  revert i
  decide!

/-- C3, as stated, fails: the first escape of the output, `fore[0]`, is a
colour select escape and the next escape after it is `back[0]`, again a colour
select escape, not the reset escape. -/
theorem reset_after_every_select_refuted :
    (escapes screen).get? 0 = some (colorSelect 204) ∧
    (escapes screen).get? 1 = some (colorSelect 161) ∧
    ¬ (∀ k : Nat, isColorSelect ((escapes screen).getD k []) = true →
        (escapes screen).get? (k + 1) = some reset) := by
  refine ⟨by decide!, by decide!, ?_⟩
  intro h
  have h0 := h 0 (by decide!)
  revert h0
  decide!

/-- Over the 66 escapes of the output: a colour select escape is followed by
the reset escape, or it lies in a column `i`, is the literal of `fore[i]`, and
is followed by the literal of `back[i]` and then the reset escape. -/
theorem reset_after_segment_fin :
    ∀ k : Fin 66, isColorSelect ((escapes screen).getD k.val []) = true →
      (escapes screen).get? (k.val + 1) = some reset ∨
      (∃ i : Fin 6, columnOfEscape k.val = i.val ∧
        (escapes screen).get? k.val = some (literal foreInit i.val) ∧
        (escapes screen).get? (k.val + 1) = some (literal backInit i.val) ∧
        isColorSelect (literal backInit i.val) = true ∧
        (escapes screen).get? (k.val + 2) = some reset) := by
  decide!

/-- C3, amended: for every occurrence of a colour select escape in the output,
the next escape after it is the reset escape, or the escape is `fore[i]` of
the column `i` it lies in, the next escape is the colour select `back[i]` of
the same column, and the escape after that one is the reset escape.  So every coloured column
segment is closed by a reset and no three colour selects occur in a row. -/
theorem reset_after_segment (k : Nat)
    (h : isColorSelect ((escapes screen).getD k []) = true) :
    (escapes screen).get? (k + 1) = some reset ∨
    (∃ i : Fin 6, columnOfEscape k = i.val ∧
      (escapes screen).get? k = some (literal foreInit i.val) ∧
      (escapes screen).get? (k + 1) = some (literal backInit i.val) ∧
      isColorSelect (literal backInit i.val) = true ∧
      (escapes screen).get? (k + 2) = some reset) := by
  by_cases hk : k < 66
  · exact reset_after_segment_fin ⟨k, hk⟩ h
  · exfalso
    have hlen : (escapes screen).length ≤ k := by
      rw [escapes_length]
      omega
    rw [List.getD_eq_default _ _ hlen] at h
    revert h
    decide

/-- Witness of `reset_after_segment` at escape 0 of the output, `fore[0]`,
which `back[0]` and then the reset escape follow. -/
theorem reset_after_segment_witness :
    isColorSelect ((escapes screen).getD 0 []) = true ∧
    ((escapes screen).get? (0 + 1) = some reset ∨
      (∃ i : Fin 6, columnOfEscape 0 = i.val ∧
        (escapes screen).get? 0 = some (literal foreInit i.val) ∧
        (escapes screen).get? (0 + 1) = some (literal backInit i.val) ∧
        isColorSelect (literal backInit i.val) = true ∧
        (escapes screen).get? (0 + 2) = some reset)) :=
  ⟨by decide!, reset_after_segment 0 (by decide!)⟩

/-- C6: each of the four content rows contains exactly 6 reset escapes and
so 6 column segments; the colour select escapes of content rows 1, 2 and 3
are, in order, `fore[0], back[0], fore[1], back[1], ..., fore[5], back[5]`,
and those of content row 4 are `back[0], ..., back[5]`, where `fore[i]` and
`back[i]` are initialiser literal `i` of the palette, that is the colour
selects of the codes 204, 161, 78, 35, 228, 185, 75, 32, 141, 98, 81, 38 and
of 161, 35, 185, 32, 98, 38. -/
theorem column_order :
    (∀ r : Fin 4, (escapes (contentRow (r.val + 1))).count reset = 6 ∧
      (columns (contentRow (r.val + 1))).length = 6) ∧
    (∀ r : Fin 3, (escapes (contentRow (r.val + 1))).filter isColorSelect =
      (List.range 6).flatMap (fun i => [literal foreInit i, literal backInit i])) ∧
    (∀ r : Fin 3, (escapes (contentRow (r.val + 1))).filter isColorSelect =
      [204, 161, 78, 35, 228, 185, 75, 32, 141, 98, 81, 38].map colorSelect) ∧
    ((List.range 6).flatMap (fun i => [literal foreInit i, literal backInit i])).length = 12 ∧
    (escapes (contentRow 4)).filter isColorSelect = (List.range 6).map (literal backInit) ∧
    (escapes (contentRow 4)).filter isColorSelect =
      [161, 35, 185, 32, 98, 38].map colorSelect ∧
    ((List.range 6).map (literal backInit)).length = 6 ∧
    (∀ r : Fin 3, ∀ i : Fin 6,
      ((columns (contentRow (r.val + 1))).getD i.val []).filterMap
          (fun t => if t.isEsc then some t.text else none) =
        [literal foreInit i.val, literal backInit i.val, reset]) ∧
    (∀ i : Fin 6,
      ((columns (contentRow 4)).getD i.val []).filterMap
          (fun t => if t.isEsc then some t.text else none) =
        [literal backInit i.val, reset]) := by
  decide!

/-- C7: lines 4 and 5 of the output are the same list of characters; each has
the length of line 3, and the positions at which it differs from line 3 are
exactly the positions of the fifth glyph of the six columns. -/
theorem middle_rows :
    line 4 = line 5 ∧
    (line 4).length = (line 3).length ∧ (line 5).length = (line 3).length ∧
    diffPositions (line 3) (line 4) = fifthGlyphPositions (line 3) ∧
    diffPositions (line 3) (line 5) = fifthGlyphPositions (line 3) ∧
    fifthGlyphPositions (line 4) = fifthGlyphPositions (line 3) ∧
    (fifthGlyphPositions (line 3)).length = 6 := by
  decide!

/-- C8: content rows 1, 2 and 3 start with four spaces followed by the ESC
that opens `fore[0]`; content row 4 starts with four spaces followed by the
space of its first segment and then the ESC that opens `back[0]`. -/
theorem row_indent :
    (∀ r : Fin 3,
      (contentRow (r.val + 1)).take 4 = List.replicate 4 space ∧
      (contentRow (r.val + 1)).get? 4 = some escChar ∧
      (entry fore 0).isPrefixOf ((contentRow (r.val + 1)).drop 4) = true) ∧
    (contentRow 4).take 4 = List.replicate 4 space ∧
    (contentRow 4).get? 4 = some space ∧
    (contentRow 4).get? 5 = some escChar ∧
    (entry back 0).isPrefixOf ((contentRow 4).drop 5) = true ∧
    (entry fore 0).head? = some escChar ∧ (entry back 0).head? = some escChar := by
  decide!

/-- C9: with the escapes removed every content row has 52 = 4 + 6 * 8
characters, and the visible cell of column `i` is the 8 characters at
positions `4 + 8 i .. 4 + 8 i + 7`; in rows 1, 2 and 3 the four foreground
blocks are at `4 + 8 i + k` for `k < 4`, and in row 4 position `4 + 8 i` is a
space and the four base glyphs are at `4 + 8 i + 1 + k`, one position to the
right. -/
theorem visible_layout (i : Fin 6) (k : Fin 4) :
    (∀ r : Fin 4,
      (visible (contentRow (r.val + 1))).length = 52 ∧
      (cell (contentRow (r.val + 1)) i.val).length = 8 ∧
      ((visible (contentRow (r.val + 1))).drop (4 + 8 * i.val)).take 8 =
        cell (contentRow (r.val + 1)) i.val) ∧
    (52 = 4 + 6 * 8) ∧
    (∀ r : Fin 3,
      (visible (contentRow (r.val + 1))).get? (4 + 8 * i.val + k.val) = some fullBlock) ∧
    (visible (contentRow 4)).get? (4 + 8 * i.val) = some space ∧
    (visible (contentRow 4)).get? (4 + 8 * i.val + 1 + k.val) = some upperHalfBlock ∧
    ((visible (contentRow 4)).drop (4 + 8 * i.val + 1)).take 4 = baseGlyphs (contentRow 4) i.val := by
  revert i k
  decide!

end Blocks
